import Mathlib

set_option maxRecDepth 100000

/-!
# Verification of the chat-client message protocol state machine

This development gives a shallow embedding of `frontend/assets/app-mcp.js`:
the inbound-envelope dispatch of `renderMessages`, the streaming accumulation
in `socket.onmessage` (Ask mode), the idle-finalize timer, the mode-change
listener, `sendMessage` together with the send-button click listener, and the
"New chat" click listener.  JavaScript values reaching the dispatch are
modelled by `JVal`; the platform function `JSON.parse` is modelled by `parseJson`
(covering the protocol subset used on this wire: objects, arrays, strings,
booleans, `null` and integer numbers).  JavaScript dynamic errors (property
access on `null`/`undefined`, `JSON.parse` failures, `forEach` on a
non-array) are modelled with `Except`, and the surrounding `try`/`catch` of
`renderMessages` turns any such error into the plain-text fallback.
-/

/-- Model of a JavaScript value as seen by `renderMessages` after
`JSON.parse`.  `jundefined` is the result of reading an absent property. -/
inductive JVal where
  | jnull
  | jundefined
  | jbool (b : Bool)
  | jnum (n : Int)
  | jstr (s : String)
  | jarr (elems : List JVal)
  | jobj (fields : List (String × JVal))

/-- JavaScript truthiness: `null`, `undefined`, `false`, `0` and `""` are
falsy; every object and array is truthy. -/
def truthy : JVal → Bool
  | .jnull => false
  | .jundefined => false
  | .jbool b => b
  | .jnum n => n ≠ 0
  | .jstr s => s ≠ ""
  | .jarr _ => true
  | .jobj _ => true

/-- Total property read: field lookup on an object, `undefined` on anything
else (including `null`/`undefined`, where the throwing behaviour is handled
separately by `getF`). -/
def jGet : JVal → String → JVal
  | .jobj fields, k =>
    match fields.find? (fun f => f.1 = k) with
    | some f => f.2
    | none => .jundefined
  | _, _ => .jundefined

/-- Property access as JavaScript performs it: reading a property of `null`
or `undefined` throws a `TypeError`; on any other value it yields the field
(or `undefined`). -/
def getF (v : JVal) (k : String) : Except Unit JVal :=
  match v with
  | .jnull => .error ()
  | .jundefined => .error ()
  | _ => .ok (jGet v k)

/-- The `.length` read used by the dispatch guards (`messages.length`,
`tool_calls.length`, `content.length`).  Strings and arrays have a numeric
length, objects may carry a `length` field, other non-null values give
`undefined`; reading `.length` of `null`/`undefined` throws. -/
def jsLength (v : JVal) : Except Unit JVal :=
  match v with
  | .jnull => .error ()
  | .jundefined => .error ()
  | .jstr s => .ok (.jnum s.length)
  | .jarr l => .ok (.jnum l.length)
  | .jobj fields => .ok (jGet (.jobj fields) "length")
  | _ => .ok .jundefined

/-- The `> 0` comparison applied to a length value (`undefined > 0` is
false in JavaScript). -/
def jsPos : JVal → Bool
  | .jnum n => 0 < n
  | _ => false

/-- The `[0]` index used by `messages[0]`: first array element, first
character of a string, property `"0"` of an object; indexing `null` or
`undefined` throws. -/
def jsIndex0 (v : JVal) : Except Unit JVal :=
  match v with
  | .jnull => .error ()
  | .jundefined => .error ()
  | .jarr (e :: _) => .ok e
  | .jarr [] => .ok .jundefined
  | .jstr s =>
    match s.data with
    | c :: _ => .ok (.jstr (String.mk [c]))
    | [] => .ok .jundefined
  | .jobj fields => .ok (jGet (.jobj fields) "0")
  | _ => .ok .jundefined

/-- String coercion applied when a value is assigned to `div.id` or passed
to `document.getElementById` (tool-call correlation keys). -/
def domId : JVal → String
  | .jstr s => s
  | .jundefined => "undefined"
  | .jnull => "null"
  | .jbool true => "true"
  | .jbool false => "false"
  | .jnum n => toString n
  | .jarr _ => "[array]"
  | .jobj _ => "[object Object]"

/-! ## A model of the platform function `JSON.parse`

Fuel-indexed recursive-descent reader for the protocol subset: objects,
arrays, double-quoted strings with the common escapes, `true`/`false`/
`null`, and integer numbers.  Any input it does not accept is a parse
failure, which the client code turns into the plain-text fallback. -/

/-- JSON whitespace. -/
def isJsonWs (c : Char) : Bool :=
  c = ' ' || c = '\n' || c = '\t' || c = '\r'

/-- Skip leading whitespace. -/
def skipWs : List Char → List Char
  | [] => []
  | c :: cs => if isJsonWs c then skipWs cs else c :: cs

/-- Read the body of a string literal (the opening quote is already
consumed), handling the escapes used by this protocol. -/
def escPairs : List (Char × Char) :=
  [('"', '"'), ('\\', '\\'), ('/', '/'), ('n', '\n'), ('t', '\t'), ('r', '\r')]

def escMap (e : Char) : Option Char :=
  (escPairs.find? (fun p => p.1 = e)).map (fun p => p.2)

/-- Read the body of a string literal (the opening quote is already
consumed), handling the escapes used by this protocol. -/
def readStr : List Char → List Char → Option (String × List Char)
  | [], _ => none
  | '"' :: rest, _acc => some (String.mk _acc.reverse, rest)
  | '\\' :: [], _ => none
  | '\\' :: e :: rest, acc =>
    match escMap e with
    | some d => readStr rest (d :: acc)
    | none => none
  | c :: rest, acc => readStr rest (c :: acc)

/-- Read a run of decimal digits. -/
def readDigits : List Char → Nat → Nat → Option (Nat × List Char)
  | c :: rest, acc, seen =>
    if c.isDigit then readDigits rest (acc * 10 + (c.toNat - '0'.toNat)) (seen + 1)
    else if seen = 0 then none else some (acc, c :: rest)
  | [], acc, seen => if seen = 0 then none else some (acc, [])

/-- Read an integer literal (optional leading minus). -/
def readInt : List Char → Option (Int × List Char)
  | '-' :: rest =>
    match readDigits rest 0 0 with
    | some (n, rest') => some (-(n : Int), rest')
    | none => none
  | l =>
    match readDigits l 0 0 with
    | some (n, rest') => some ((n : Int), rest')
    | none => none

mutual

/-- When the input starts with the given keyword, the remainder after
it. -/
def afterKeyword (kw : String) (l : List Char) : Option (List Char) :=
  if l.take kw.length = kw.data then some (l.drop kw.length) else none

/-- Read one JSON value. -/
def readVal : Nat → List Char → Option (JVal × List Char)
  | 0, _ => none
  | fuel + 1, l =>
    match afterKeyword "null" (skipWs l), afterKeyword "true" (skipWs l),
        afterKeyword "false" (skipWs l) with
    | some rest, _, _ => some (.jnull, rest)
    | none, some rest, _ => some (.jbool true, rest)
    | none, none, some rest => some (.jbool false, rest)
    | none, none, none =>
    match skipWs l with
    | '"' :: rest =>
      match readStr rest [] with
      | some (s, rest') => some (.jstr s, rest')
      | none => none
    | '[' :: rest =>
      (match skipWs rest with
       | ']' :: rest' => some (.jarr [], rest')
       | l' =>
         match readElems fuel l' with
         | some (es, rest') => some (.jarr es, rest')
         | none => none)
    | '\x7b' :: rest =>
      (match skipWs rest with
       | '\x7d' :: rest' => some (.jobj [], rest')
       | l' =>
         match readFields fuel l' with
         | some (fs, rest') => some (.jobj fs, rest')
         | none => none)
    | l' =>
      match readInt l' with
      | some (n, rest') => some (.jnum n, rest')
      | none => none

/-- Read the elements of a non-empty array, up to and including `]`. -/
def readElems : Nat → List Char → Option (List JVal × List Char)
  | 0, _ => none
  | fuel + 1, l =>
    match readVal fuel l with
    | some (v, rest) =>
      (match skipWs rest with
       | ',' :: rest' =>
         match readElems fuel rest' with
         | some (vs, rest'') => some (v :: vs, rest'')
         | none => none
       | ']' :: rest' => some ([v], rest')
       | _ => none)
    | none => none

/-- Read the members of a non-empty object, up to and including the
closing brace. -/
def readFields : Nat → List Char → Option (List (String × JVal) × List Char)
  | 0, _ => none
  | fuel + 1, l =>
    match skipWs l with
    | '"' :: rest =>
      (match readStr rest [] with
       | some (k, rest') =>
         (match skipWs rest' with
          | ':' :: rest'' =>
            (match readVal fuel rest'' with
             | some (v, rest3) =>
               (match skipWs rest3 with
                | ',' :: rest4 =>
                  (match readFields fuel rest4 with
                   | some (fs, rest5) => some ((k, v) :: fs, rest5)
                   | none => none)
                | '\x7d' :: rest4 => some ([(k, v)], rest4)
                | _ => none)
             | none => none)
          | _ => none)
       | none => none)
    | _ => none

end

/-- Model of `JSON.parse`: `none` is a thrown `SyntaxError`. -/
def parseJson (s : String) : Option JVal :=
  match readVal (s.length + 1) s.data with
  | some (v, rest) => if skipWs rest = [] then some v else none
  | none => none

example : parseJson "null" = some .jnull := by rfl
example : parseJson "[1, 2]" = some (.jarr [.jnum 1, .jnum 2]) := by rfl
example : parseJson "\x7b\"a\": \"b\"\x7d" = some (.jobj [("a", .jstr "b")]) := by rfl
example : parseJson "Hello, world" = none := by rfl
example : parseJson "\x7b\"a\": \x7b\"b\": true\x7d, \"c\": -3\x7d" =
    some (.jobj [("a", .jobj [("b", .jbool true)]), ("c", .jnum (-3))]) := by rfl

/-! ## Envelope classification (`renderMessages` dispatch, app-mcp.js 87-176)

`renderMessages` has no separate classifier function; the dispatch is the
`if`/`else if` chain over the parsed message inside a `try`/`catch`.  We
model the chain as `classifyVal` (with `Except` for the JavaScript errors
it can raise) and the whole guarded dispatch as the total `classifyMsg`:
the `catch` turns parse and shape failures into the plain-text fallback. -/

/-- One tool call as collected from `additional_kwargs.tool_calls` by the
`forEach` at lines 115-123 (entries whose `type` is not `"function"` are
skipped). -/
structure ToolCallItem where
  id : String
  name : JVal
  argsRaw : String

/-- One entry of `tools.messages` as consumed at lines 143-155. -/
structure ToolMsgRec where
  toolCallId : JVal
  content : JVal
  status : JVal

/-- The classified inbound envelope.  `catchPlain` is the `catch` branch
(parse or shape failure, rendered as raw text with a streaming indicator
when applicable); `noMatchPlain` is the final `else` (valid JSON matching
no branch, rendered as raw text without indicator); `agentEmpty` is the
agent branch whose message has neither tool calls nor non-empty content
(renders the raw message, still showing usage metrics). -/
inductive Envelope where
  | ragComplete (content : JVal)
  | agentToolCalls (calls : List ToolCallItem) (usage : Option JVal)
  | agentContent (content : JVal) (usage : Option JVal)
  | agentEmpty (usage : Option JVal)
  | toolResults (results : List ToolMsgRec)
  | noMatchPlain (raw : String)
  | catchPlain (raw : String)

/-- The `usage_metadata` of the first agent message; attached only when truthy
(line 135). -/
def usageOf (m0 : JVal) : Option JVal :=
  if truthy (jGet m0 "usage_metadata") then some (jGet m0 "usage_metadata") else none

/-- Model of `JSON.parse(toolData.arguments || two-brace-literal)` in `renderToolCall`
(line 211): a falsy `arguments` defaults to the empty-object literal, a
string must parse as JSON (else the whole entry degrades via the `catch`),
a number stringifies and parses, and other objects coerce to non-JSON
text and throw. -/
def argsRawOf (a : JVal) : Except Unit String :=
  if truthy a then
    match a with
    | .jstr s => match parseJson s with
      | some _ => .ok s
      | none => .error ()
    | .jnum n => .ok (toString n)
    | _ => .error ()
  else .ok "\x7b\x7d"

/-- Process one element of `tool_calls` (lines 115-123): reading `.type`
of a `null` element throws; non-`"function"` elements are skipped;
`renderToolCall` reads `function.name` (throwing when `function` is
absent) and validates the arguments string. -/
def readCall (c : JVal) : Except Unit (Option ToolCallItem) :=
  match getF c "type" with
  | .error e => .error e
  | .ok (.jstr "function") =>
    match getF c "id" with
    | .error e => .error e
    | .ok cid =>
      match getF c "function" with
      | .error e => .error e
      | .ok fn =>
        match getF fn "name" with
        | .error e => .error e
        | .ok nm =>
          match getF fn "arguments" with
          | .error e => .error e
          | .ok a =>
            match argsRawOf a with
            | .error e => .error e
            | .ok raw =>
              .ok (some ⟨domId cid, if truthy nm then nm else .jstr "Unknown Tool", raw⟩)
  | .ok _ => .ok none

/-- The `tool_calls.forEach` loop; `forEach` on a non-array throws. -/
def goCalls : List JVal → Except Unit (List ToolCallItem)
  | [] => .ok []
  | c :: rest =>
    match readCall c with
    | .error e => .error e
    | .ok none => goCalls rest
    | .ok (some item) =>
      match goCalls rest with
      | .error e => .error e
      | .ok items => .ok (item :: items)

def extractToolCalls (v : JVal) : Except Unit (List ToolCallItem) :=
  match v with
  | .jarr elems => goCalls elems
  | _ => .error ()

/-- Process one element of `tools.messages` (lines 143-155): the first
property read, `toolMsg.tool_call_id`, throws on a `null` element; the
remaining reads on the same value are then exception-free. -/
def readToolMsg (m : JVal) : Except Unit ToolMsgRec :=
  match getF m "tool_call_id" with
  | .error e => .error e
  | .ok tcid => .ok ⟨tcid, jGet m "content", jGet m "status"⟩

/-- The `tools.messages.forEach` loop; `forEach` on a non-array throws. -/
def goToolMsgs : List JVal → Except Unit (List ToolMsgRec)
  | [] => .ok []
  | m :: rest =>
    match readToolMsg m with
    | .error e => .error e
    | .ok r =>
      match goToolMsgs rest with
      | .error e => .error e
      | .ok rs => .ok (r :: rs)

def extractToolMsgs (v : JVal) : Except Unit (List ToolMsgRec) :=
  match v with
  | .jarr elems => goToolMsgs elems
  | _ => .error ()

/-- The `else if (content.length > 0)` / `else` tail of the agent branch
(lines 124-132), followed by the usage check (lines 134-141). Reading
`.length` of a `null`/`undefined` content throws. -/
def agentContentBranch (m0 : JVal) : Except Unit Envelope :=
  match getF m0 "content" with
  | .error e => .error e
  | .ok c =>
    match jsLength c with
    | .error e => .error e
    | .ok clen =>
      if jsPos clen then .ok (.agentContent c (usageOf m0))
      else .ok (.agentEmpty (usageOf m0))

/-- Body of the agent branch after `messages[0]` is read (lines 108-141):
the logged access `additional_kwargs.tool_calls` has already been
performed by the caller; then the tool-calls guard, else the content
guard. -/
def agentBody (m0 ak tc : JVal) : Except Unit Envelope :=
  if truthy ak && truthy tc then
    match jsLength tc with
    | .error e => .error e
    | .ok tlen =>
      if jsPos tlen then
        match extractToolCalls tc with
        | .error e => .error e
        | .ok calls => .ok (.agentToolCalls calls (usageOf m0))
      else agentContentBranch m0
  else agentContentBranch m0

/-- The `tools` branch and the final fallback (lines 142-160). -/
def classifyTools (raw : String) (j : JVal) : Except Unit Envelope :=
  match getF j "tools" with
  | .error e => .error e
  | .ok tl =>
    if truthy tl then
      match getF tl "messages" with
      | .error e => .error e
      | .ok tmsgs =>
        if truthy tmsgs then
          match jsLength tmsgs with
          | .error e => .error e
          | .ok len =>
            if jsPos len then
              match extractToolMsgs tmsgs with
              | .error e => .error e
              | .ok rs => .ok (.toolResults rs)
            else .ok (.noMatchPlain raw)
        else .ok (.noMatchPlain raw)
    else .ok (.noMatchPlain raw)

/-- The `agent` branch guard (lines 105-141).  Note line 108: the
`console.log` argument reads `messages[0].additional_kwargs.tool_calls`
before any truthiness check, so an absent `additional_kwargs` throws and
the entry degrades to the plain-text fallback. -/
def classifyAgent (raw : String) (j : JVal) : Except Unit Envelope :=
  match getF j "agent" with
  | .error e => .error e
  | .ok ag =>
    if truthy ag then
      match getF ag "messages" with
      | .error e => .error e
      | .ok amsgs =>
        if truthy amsgs then
          match jsLength amsgs with
          | .error e => .error e
          | .ok len =>
            if jsPos len then
              match jsIndex0 amsgs with
              | .error e => .error e
              | .ok m0 =>
                match getF m0 "additional_kwargs" with
                | .error e => .error e
                | .ok ak =>
                  match getF ak "tool_calls" with
                  | .error e => .error e
                  | .ok tc => agentBody m0 ak tc
            else classifyTools raw j
        else classifyTools raw j
    else classifyTools raw j

/-- The full dispatch chain on a successfully parsed message (lines
93-160): RAG-complete, then agent, then tools, then fallback. -/
def classifyVal (raw : String) (j : JVal) : Except Unit Envelope :=
  match getF j "rag" with
  | .error e => .error e
  | .ok rag =>
    if truthy rag then
      match getF rag "messages" with
      | .error e => .error e
      | .ok rmsgs =>
        if truthy rmsgs then
          match getF rmsgs "content" with
          | .error e => .error e
          | .ok rc =>
            if truthy rc then .ok (.ragComplete rc)
            else classifyAgent raw j
        else classifyAgent raw j
    else classifyAgent raw j

/-- Classification of one raw inbound payload, `try`/`catch` included
(lines 89-172): a `JSON.parse` failure or any shape error inside the
`try` block degrades to the plain-text `catch` branch carrying the raw
text.  This is a total function. -/
def classifyMsg (raw : String) : Envelope :=
  match parseJson raw with
  | none => .catchPlain raw
  | some j =>
    match classifyVal raw j with
    | .ok env => env
    | .error _ => .catchPlain raw

/-! ## The specified classifier (spec 4.1), for comparison

The specification describes the classifier as a five-rule dispatch that
includes a RAG-partial rule between the RAG-complete rule and the agent
rule.  `specClassify` follows the wording of spec 4.1 and is used only to
compare the specified dispatch with the implemented one. -/

/-- Envelope variants as the specification names them. -/
inductive SpecEnvelope where
  | ragComplete (content : JVal) (usage : Option JVal)
  | ragPartialMsg (content : JVal)
  | agentToolCalls (calls : List ToolCallItem)
  | agentContent (content : JVal) (usage : Option JVal)
  | toolResults (results : List ToolMsgRec)
  | plainTextChunk (raw : String)

/-- The strict `=== true` test of spec rule 2. -/
def isStrictTrue : JVal → Bool
  | .jbool b => b
  | _ => false

/-- Spec rule 3 sub-extraction: the `{id, name, argumentsRaw}` triples. -/
def specCalls (v : JVal) : List ToolCallItem :=
  match v with
  | .jarr elems =>
    elems.map (fun c =>
      ⟨domId (jGet c "id"), jGet (jGet c "function") "name",
        domId (jGet (jGet c "function") "arguments")⟩)
  | _ => []

/-- Spec rule 4 sub-extraction: the `{toolCallId, name, content, status}`
records. -/
def specToolMsgs (v : JVal) : List ToolMsgRec :=
  match v with
  | .jarr elems => elems.map (fun m => ⟨jGet m "tool_call_id", jGet m "content", jGet m "status"⟩)
  | _ => []

/-- The classifier as specified (spec 4.1): total, never throwing, with
dispatch order rag-complete, rag-partial, agent, tools, fallback. -/
def specClassify (raw : String) : SpecEnvelope :=
  match parseJson raw with
  | none => .plainTextChunk raw
  | some j =>
    let rag := jGet j "rag"
    if truthy (jGet (jGet rag "messages") "content") then
      .ragComplete (jGet (jGet rag "messages") "content")
        (usageOf (jGet rag "messages"))
    else if isStrictTrue (jGet rag "partial") && truthy (jGet rag "content") then
      .ragPartialMsg (jGet rag "content")
    else
      match jGet (jGet j "agent") "messages" with
      | .jarr (m0 :: _) =>
        (match jGet (jGet m0 "additional_kwargs") "tool_calls" with
         | .jarr (c :: cs) => .agentToolCalls (specCalls (.jarr (c :: cs)))
         | _ =>
           if truthy (jGet m0 "content") then
             .agentContent (jGet m0 "content") (usageOf m0)
           else .plainTextChunk raw)
      | _ =>
        match jGet (jGet j "tools") "messages" with
        | .jarr (m :: ms) => .toolResults (specToolMsgs (.jarr (m :: ms)))
        | _ => .plainTextChunk raw

/-! ## The rendered transcript (one full `renderMessages` pass)

`renderMessages` rebuilds the chat box from scratch on every call, walking
`messageHistory` in order.  `renderHistory` models the blocks appended to
the chat box by one full pass: each entry contributes at most one block,
and a `tools` entry contributes none — its results are attached to the
first previously rendered tool-call element whose DOM id matches
(`document.getElementById`, lines 146-154), or dropped with a console
warning when no such element exists (the `toolResultDiv == null` guard at
line 195 then skips `chatBox.appendChild`). -/

/-- Who produced a transcript entry (`sender` field). -/
inductive Sender where
  | user
  | agent
deriving DecidableEq, Repr

/-- One entry of `messageHistory`: raw message text, sender, and the
streaming flag used by Ask mode (absent, hence false, elsewhere). -/
structure Entry where
  msg : String
  sender : Sender
  streaming : Bool
deriving DecidableEq, Repr

/-- A rendered tool-result element (`renderToolResponse`, lines 222-238):
error styling exactly when `status` is the string `error`. -/
structure ToolResultView where
  content : JVal
  isError : Bool

/-- A rendered tool-call element with its attached results.  Only the last
`function`-typed call of an envelope is rendered (the `toolDiv` variable is
overwritten on each loop iteration, line 118). -/
structure ToolCallBox where
  callId : String
  name : JVal
  argsRaw : String
  results : List ToolResultView

/-- One block appended to the chat box for one history entry. -/
inductive Block where
  | userMsg (text : String)
  | catchText (text : String) (dots : Bool)
  | fallbackText (text : String)
  | ragMsg (content : JVal) (dots : Bool)
  | agentText (content : JVal) (usage : Option JVal)
  | agentRaw (text : String) (usage : Option JVal)
  | agentCall (tool : Option ToolCallBox) (usage : Option JVal)

/-- Whether a block carries the tool-call element with the given DOM id. -/
def ownsId (b : Block) (callId : String) : Bool :=
  match b with
  | .agentCall (some box) _ => box.callId = callId
  | _ => false

/-- The `status` equals-`error` test of `renderToolResponse` (line 225). -/
def isErrStatus : JVal → Bool
  | .jstr s => s = "error"
  | _ => false

/-- Append one result element under the tool-call element of a block. -/
def pushResult (b : Block) (r : ToolMsgRec) : Block :=
  match b with
  | .agentCall (some box) u =>
    .agentCall (some { box with results := box.results ++ [⟨r.content, isErrStatus r.status⟩] }) u
  | other => other

/-- Attach one tool result to the first block owning its tool-call id
(document order, as `document.getElementById` finds it); when no block
owns it the result is dropped with a console warning (lines 152-154). -/
def attachRec : List Block → ToolMsgRec → List Block
  | [], _ => []
  | b :: bs, r =>
    if ownsId b (domId r.toolCallId) then pushResult b r :: bs
    else b :: attachRec bs r

/-- The tool-call element rendered for an `AgentToolCalls` envelope: the
last `function`-typed call, with no results yet. -/
def callBoxOf (calls : List ToolCallItem) : Option ToolCallBox :=
  (calls.getLast?).map (fun it => ⟨it.id, it.name, it.argsRaw, []⟩)

/-- Render one history entry given the blocks rendered so far. -/
def renderEntry (bs : List Block) (e : Entry) : List Block :=
  match e.sender with
  | .user => bs ++ [.userMsg e.msg]
  | .agent =>
    match classifyMsg e.msg with
    | .catchPlain raw => bs ++ [.catchText raw e.streaming]
    | .noMatchPlain raw => bs ++ [.fallbackText raw]
    | .ragComplete c => bs ++ [.ragMsg c e.streaming]
    | .agentContent c u => bs ++ [.agentText c u]
    | .agentEmpty u => bs ++ [.agentRaw e.msg u]
    | .agentToolCalls calls u => bs ++ [.agentCall (callBoxOf calls) u]
    | .toolResults rs => rs.foldl attachRec bs

/-- One full `renderMessages` pass over the history. -/
def renderHistory (h : List Entry) : List Block :=
  h.foldl renderEntry []

/-- All result elements attached under tool-call elements with the given
DOM id, in document order. -/
def attachedResults (bs : List Block) (callId : String) : List ToolResultView :=
  bs.foldr (fun b acc =>
    match b with
    | .agentCall (some box) _ => if box.callId = callId then box.results ++ acc else acc
    | _ => acc) []

/-! ## Client state and event handlers (app-mcp.js 1-10, 278-333, 344-370,
431-445, 452-461, 479-490)

The module-level mutable state of app-mcp.js is collected into `AppState`.
`currentStreamingMessage` holds a reference to the entry being streamed;
since streamed entries are pushed into `messageHistory` and only ever
mutated in place, the reference is modelled as the index of the entry.
`streamingTimeout` models whether an idle-finalize timeout is pending:
`setTimeout` arms it, `clearTimeout` disarms it, and an expiry can only be
delivered while it is armed.  `socketGen` counts `connectWebSocket`
invocations, and `sent` records the payloads passed to `socket.send`. -/

/-- The two chat modes (`currentMode`). -/
inductive Mode where
  | agent
  | ask
deriving DecidableEq, Repr

/-- A payload passed to `socket.send` by `sendMessage` (lines 355-365;
the optional `model_provider` from the model selector is elided). -/
structure SendPayload where
  message : String
  session_id : String
  mode : Mode
deriving DecidableEq, Repr

/-- The module-level mutable state of the client. -/
structure AppState where
  messageHistory : List Entry
  sessionId : String
  currentMode : Mode
  currentStreamingMessage : Option Nat
  streamingTimeout : Bool
  socketOpen : Bool
  socketGen : Nat
  sent : List SendPayload
  toasts : List String
deriving DecidableEq, Repr

/-- State right after page load for a given saved mode: empty transcript,
no active stream, no pending timer, `connectWebSocket` called once. -/
def initState (m : Mode) : AppState :=
  { messageHistory := []
    sessionId := "sess-init"
    currentMode := m
    currentStreamingMessage := none
    streamingTimeout := false
    socketOpen := true
    socketGen := 1
    sent := []
    toasts := [] }

/-- In-place update of the entry at index `i` (a reference held into the
array); out-of-range indices leave the list unchanged, matching a
reference to an object that is no longer in the array. -/
def modifyIdx : List Entry → Nat → (Entry → Entry) → List Entry
  | [], _, _ => []
  | e :: t, 0, f => f e :: t
  | e :: t, n + 1, f => e :: modifyIdx t n f

/-- Handler `socket.onmessage` (lines 278-333).  Ask mode: start a new streaming
entry or append the chunk to the current one, then clear and re-arm the
idle timeout.  Agent mode: push the raw message as a finished agent
entry. -/
def recvMessage (s : AppState) (data : String) : AppState :=
  match s.currentMode with
  | .ask =>
    match s.currentStreamingMessage with
    | none =>
      { s with
        messageHistory := s.messageHistory ++ [⟨data, .agent, true⟩]
        currentStreamingMessage := some s.messageHistory.length
        streamingTimeout := true }
    | some i =>
      { s with
        messageHistory := modifyIdx s.messageHistory i (fun e => { e with msg := e.msg ++ data })
        streamingTimeout := true }
  | .agent =>
    { s with messageHistory := s.messageHistory ++ [⟨data, .agent, false⟩] }

/-- The idle-timeout callback (lines 311-317), fired when the armed
timeout expires: if a streaming entry is active, clear its streaming flag
and drop the reference; otherwise do nothing. -/
def timerExpire (s : AppState) : AppState :=
  match s.currentStreamingMessage with
  | none => { s with streamingTimeout := false }
  | some i =>
    { s with
      messageHistory := modifyIdx s.messageHistory i (fun e => { e with streaming := false })
      currentStreamingMessage := none
      streamingTimeout := false }

/-- The mode-change listener (lines 431-445): set the mode, drop the
streaming reference, reconnect the socket to the other endpoint.  It does
not touch `messageHistory` and does not clear the pending timeout. -/
def modeChange (s : AppState) (m : Mode) : AppState :=
  { s with
    currentMode := m
    currentStreamingMessage := none
    socketGen := s.socketGen + 1
    socketOpen := false }

/-- Function `sendMessage` (lines 344-370): when the socket is open, Ask mode first
resets the streaming state and cancels the pending timeout, then the
payload is sent; when it is not open, only an error notification is
shown — nothing is rolled back. -/
def sendMessage (s : AppState) (message : String) : AppState :=
  if s.socketOpen then
    let s1 :=
      if s.currentMode = .ask then
        { s with currentStreamingMessage := none, streamingTimeout := false }
      else s
    { s1 with sent := s1.sent ++ [⟨message, s1.sessionId, s1.currentMode⟩] }
  else
    { s with toasts := s.toasts ++ ["Connection error. Please refresh the page."] }

/-- The send-button click listener (lines 452-461): a non-empty input is
optimistically pushed as a user entry (`displayMessage`), then
`sendMessage` runs. -/
def clickSend (s : AppState) (input : String) : AppState :=
  if input = "" then s
  else
    sendMessage
      { s with messageHistory := s.messageHistory ++ [⟨input, .user, false⟩] }
      input

/-- The "New chat" click listener (lines 479-490): store a freshly
generated session id and empty the transcript, then re-render and refetch
history for the new id.  the random output of `generateSessionId` is the
`freshId` argument.  Note what the handler does not do: it neither calls
`connectWebSocket` nor touches the streaming reference or the pending
timeout. -/
def newChatClick (s : AppState) (freshId : String) : AppState :=
  { s with sessionId := freshId, messageHistory := [] }

/-- The events the protocol state machine reacts to: an inbound envelope,
an idle-timeout expiry, a mode switch. -/
inductive Event where
  | recv (data : String)
  | timerFire
  | modeSwitch (m : Mode)
deriving DecidableEq, Repr

/-- One event step.  A timer expiry can only be delivered while a timeout
is pending. -/
def step (s : AppState) : Event → AppState
  | .recv data => recvMessage s data
  | .timerFire => if s.streamingTimeout then timerExpire s else s
  | .modeSwitch m => modeChange s m

/-- Run a sequence of events from a state. -/
def runEvents (s : AppState) (es : List Event) : AppState :=
  es.foldl step s

/-! ## Concrete wire payloads used in the analysis -/

/-- An agent tool-call envelope carrying one call with id `call_1`
(spec 8, end-to-end scenario). -/
def tcRaw : String :=
  "\x7b\"agent\":\x7b\"messages\":[\x7b\"content\":\"\",\"additional_kwargs\":\x7b\"tool_calls\":[\x7b\"id\":\"call_1\",\"type\":\"function\",\"function\":\x7b\"name\":\"odoo_tool\",\"arguments\":\"\x7b\\\"action\\\":\\\"schema\\\"\x7d\"\x7d\x7d]\x7d\x7d]\x7d\x7d"

/-- A tool-result envelope answering `call_1`. -/
def resRaw : String :=
  "\x7b\"tools\":\x7b\"messages\":[\x7b\"tool_call_id\":\"call_1\",\"name\":\"odoo_tool\",\"content\":\"result-data\",\"status\":\"success\"\x7d]\x7d\x7d"

/-- A tool-result envelope whose `tool_call_id` (`"X"`) matches no prior
tool call. -/
def orphanRaw : String :=
  "\x7b\"tools\":\x7b\"messages\":[\x7b\"tool_call_id\":\"X\",\"name\":\"t\",\"content\":\"orphan result\",\"status\":\"success\"\x7d]\x7d\x7d"

/-- A legacy RAG-partial envelope: `.rag.partial === true` with
`.rag.content` present and `.rag.messages.content` absent. -/
def ragPartialRaw : String :=
  "\x7b\"rag\":\x7b\"partial\":true,\"content\":\"hi\"\x7d\x7d"

/-- The arguments string carried inside `tcRaw`. -/
def tcArgs : String := "\x7b\"action\":\"schema\"\x7d"

/-- The tool-result record carried by `resRaw`. -/
def resRec : ToolMsgRec := ⟨.jstr "call_1", .jstr "result-data", .jstr "success"⟩

/-- History entries as `socket.onmessage` pushes them in Agent mode. -/
def tcEntry : Entry := ⟨tcRaw, .agent, false⟩

def resEntry : Entry := ⟨resRaw, .agent, false⟩

def orphanEntry : Entry := ⟨orphanRaw, .agent, false⟩

example : classifyMsg tcRaw =
    .agentToolCalls [⟨"call_1", .jstr "odoo_tool", tcArgs⟩] none := by rfl

example : classifyMsg resRaw = .toolResults [resRec] := by rfl

example : classifyMsg orphanRaw =
    .toolResults [⟨.jstr "X", .jstr "orphan result", .jstr "success"⟩] := by rfl

example : classifyMsg ragPartialRaw = .noMatchPlain ragPartialRaw := by rfl

example : classifyMsg "Hello, world" = .catchPlain "Hello, world" := by rfl

example : specClassify ragPartialRaw = .ragPartialMsg (.jstr "hi") := by rfl

example : renderHistory [orphanEntry] = [] := by rfl

example :
    renderHistory [tcEntry, resEntry] =
      [.agentCall (some ⟨"call_1", .jstr "odoo_tool", tcArgs,
        [⟨.jstr "result-data", false⟩]⟩) none] := by rfl

example : (attachedResults (renderHistory [tcEntry, resEntry, resEntry]) "call_1").length = 2 := by
  rfl

/-! ## The single-active-stream invariant -/

/-- Number of transcript entries currently flagged as streaming. -/
def countStreaming (l : List Entry) : Nat :=
  l.countP (fun e => e.streaming)

theorem countStreaming_append (l : List Entry) (e : Entry) :
    countStreaming (l ++ [e]) = countStreaming l + (if e.streaming then 1 else 0) := by
  simp [countStreaming, List.countP_append, List.countP_cons]

theorem modifyIdx_getElem? (l : List Entry) (i : Nat) (f : Entry → Entry) :
    (modifyIdx l i f)[i]? = (l[i]?).map f := by
  induction l generalizing i with
  | nil => simp [modifyIdx]
  | cons e t ih =>
    cases i with
    | zero => simp [modifyIdx]
    | succ n => simpa [modifyIdx] using ih n

theorem countStreaming_modifyIdx_preserve (l : List Entry) (i : Nat) (f : Entry → Entry)
    (hf : ∀ e, (f e).streaming = e.streaming) :
    countStreaming (modifyIdx l i f) = countStreaming l := by
  induction l generalizing i with
  | nil => simp [modifyIdx]
  | cons e t ih =>
    cases i with
    | zero => simp [modifyIdx, countStreaming, List.countP_cons, hf]
    | succ n =>
      simpa [modifyIdx, countStreaming, List.countP_cons] using ih n

theorem countStreaming_modifyIdx_unset (l : List Entry) (i : Nat) (e : Entry)
    (hget : l[i]? = some e) (hs : e.streaming = true) :
    countStreaming (modifyIdx l i (fun x => { x with streaming := false })) + 1 =
      countStreaming l := by
  induction l generalizing i with
  | nil => simp at hget
  | cons a t ih =>
    cases i with
    | zero =>
      simp only [List.getElem?_cons_zero, Option.some.injEq] at hget
      subst hget
      simp [modifyIdx, countStreaming, List.countP_cons, hs]
    | succ n =>
      simp only [List.getElem?_cons_succ] at hget
      have := ih n hget
      simp only [modifyIdx, countStreaming, List.countP_cons] at *
      omega

/-- The state-machine invariant behind the single-active-stream property:
with no active streaming reference no entry is flagged streaming; with an
active reference exactly one entry is flagged, namely the referenced
one. -/
def StreamInv (s : AppState) : Prop :=
  match s.currentStreamingMessage with
  | none => countStreaming s.messageHistory = 0
  | some i =>
    countStreaming s.messageHistory = 1 ∧
      ∃ e, s.messageHistory[i]? = some e ∧ e.streaming = true

theorem streamInv_init (m : Mode) : StreamInv (initState m) := by
  simp [StreamInv, initState, countStreaming]

/-- Events other than a mode switch. -/
def noModeSwitchB : Event → Bool
  | .modeSwitch _ => false
  | _ => true

theorem streamInv_recv (s : AppState) (data : String) (h : StreamInv s) :
    StreamInv (recvMessage s data) := by
  cases hm : s.currentMode with
  | agent =>
    cases hp : s.currentStreamingMessage with
    | none =>
      simp only [StreamInv, hp] at h
      simp [recvMessage, hm, StreamInv, hp, countStreaming_append, h]
    | some i =>
      simp only [StreamInv, hp] at h
      obtain ⟨h1, e, hget, hs⟩ := h
      have hi : i < s.messageHistory.length := by
        by_contra hlt
        rw [List.getElem?_eq_none (by omega)] at hget
        exact Option.noConfusion hget
      simp only [recvMessage, hm, StreamInv, hp]
      exact ⟨by simp [countStreaming_append, h1],
        e, by rw [List.getElem?_append_left hi]; exact hget, hs⟩
  | ask =>
    cases hp : s.currentStreamingMessage with
    | none =>
      simp only [StreamInv, hp] at h
      simp only [recvMessage, hm, StreamInv, hp]
      exact ⟨by simp [countStreaming_append, h],
        ⟨data, .agent, true⟩, by rw [List.getElem?_concat_length], rfl⟩
    | some i =>
      simp only [StreamInv, hp] at h
      obtain ⟨h1, e, hget, hs⟩ := h
      simp only [recvMessage, hm, hp, StreamInv]
      refine ⟨by
        rw [countStreaming_modifyIdx_preserve s.messageHistory i
          (fun x => { x with msg := x.msg ++ data }) (fun x => rfl)]
        exact h1,
        { e with msg := e.msg ++ data }, ?_, hs⟩
      rw [modifyIdx_getElem?, hget]
      rfl

theorem streamInv_timer (s : AppState) (h : StreamInv s) : StreamInv (timerExpire s) := by
  cases hp : s.currentStreamingMessage with
  | none =>
    simp only [StreamInv, hp] at h
    simp [timerExpire, hp, StreamInv, h]
  | some i =>
    simp only [StreamInv, hp] at h
    obtain ⟨h1, e, hget, hs⟩ := h
    have hcount := countStreaming_modifyIdx_unset s.messageHistory i e hget hs
    simp only [timerExpire, hp, StreamInv]
    omega

theorem streamInv_step (s : AppState) (ev : Event) (h : StreamInv s)
    (hns : noModeSwitchB ev = true) : StreamInv (step s ev) := by
  cases ev with
  | recv data => exact streamInv_recv s data h
  | timerFire =>
    by_cases ht : s.streamingTimeout = true
    · simpa [step, ht] using streamInv_timer s h
    · simp only [Bool.not_eq_true] at ht
      simpa [step, ht] using h
  | modeSwitch m => simp [noModeSwitchB] at hns

theorem streamInv_run (es : List Event) (s : AppState) (h : StreamInv s)
    (hns : es.all noModeSwitchB = true) : StreamInv (runEvents s es) := by
  induction es generalizing s with
  | nil => simpa [runEvents]
  | cons ev rest ih =>
    simp only [List.all_cons, Bool.and_eq_true] at hns
    have hr : runEvents s (ev :: rest) = runEvents (step s ev) rest := by
      simp [runEvents, List.foldl_cons]
    rw [hr]
    exact ih (step s ev) (streamInv_step s ev h hns.1) hns.2

theorem streamInv_le_one (s : AppState) (h : StreamInv s) :
    countStreaming s.messageHistory ≤ 1 := by
  cases hp : s.currentStreamingMessage with
  | none => simp only [StreamInv, hp] at h; omega
  | some i => simp only [StreamInv, hp] at h; omega

/-! ## Supporting lemmas for the render model and the JS semantics -/

theorem attachRec_length (bs : List Block) (r : ToolMsgRec) :
    (attachRec bs r).length = bs.length := by
  induction bs with
  | nil => rfl
  | cons b rest ih =>
    by_cases hb : ownsId b (domId r.toolCallId) = true <;> simp [attachRec, hb, ih]

theorem attachRec_no_owner (bs : List Block) (r : ToolMsgRec)
    (h : bs.all (fun b => !ownsId b (domId r.toolCallId)) = true) :
    attachRec bs r = bs := by
  induction bs with
  | nil => rfl
  | cons b rest ih =>
    simp only [List.all_cons, Bool.and_eq_true, Bool.not_eq_true'] at h
    simp [attachRec, h.1, ih h.2]

theorem renderHistory_append (h : List Entry) (e : Entry) :
    renderHistory (h ++ [e]) = renderEntry (renderHistory h) e := by
  simp [renderHistory, List.foldl_append]

theorem getF_ok (j : JVal) (k : String) (hnn : j ≠ .jnull) (hnu : j ≠ .jundefined) :
    getF j k = .ok (jGet j k) := by
  cases j with
  | jnull => exact absurd rfl hnn
  | jundefined => exact absurd rfl hnu
  | jbool b => rfl
  | jnum n => rfl
  | jstr s => rfl
  | jarr l => rfl
  | jobj fs => rfl

theorem truthy_ne_null (v : JVal) (h : truthy v = true) : v ≠ .jnull ∧ v ≠ .jundefined := by
  cases v <;> simp_all [truthy]

theorem isStrictTrue_jGet_truthy (v : JVal) (k : String)
    (h : isStrictTrue (jGet v k) = true) : truthy v = true := by
  cases v <;> simp_all [jGet, isStrictTrue, truthy]

/-- When the `agent` and `tools` guards are both falsy, the dispatch tail
lands in the final fallback. -/
theorem classifyAgent_falls (raw : String) (j : JVal)
    (hnn : j ≠ .jnull) (hnu : j ≠ .jundefined)
    (h4 : truthy (jGet j "agent") = false)
    (h5 : truthy (jGet j "tools") = false) :
    classifyAgent raw j = .ok (.noMatchPlain raw) := by
  unfold classifyAgent classifyTools
  rw [getF_ok j "agent" hnn hnu, getF_ok j "tools" hnn hnu]
  simp [h4, h5]

/-! ## Claim C1 -/

/-- Claim C1 as stated: for any sequence of inbound envelopes, timer
expiries, and mode switches, `messageHistory` never holds two
simultaneously streaming turns. -/
def claimC1 : Prop :=
  ∀ (m : Mode) (es : List Event),
    countStreaming ((runEvents (initState m) es).messageHistory) ≤ 1

/-- The refuting event sequence: a chunk starts a stream in Ask mode, a
mode switch to Agent drops the streaming reference without clearing the
flag of the entry, and after switching back a new chunk starts a second
streaming entry while the first is still flagged. -/
def c1CexEvents : List Event :=
  [.recv "a", .modeSwitch .agent, .modeSwitch .ask, .recv "b"]

/-- C1, counterexample: with mode switches in the sequence the transcript
can hold two entries flagged streaming at once, because the mode-change
listener nulls `currentStreamingMessage` without resetting the `streaming`
flag of the previous entry (lines 437-438). -/
theorem c1_two_streaming_turns_cex : ¬ claimC1 :=
  fun h => absurd (h .ask c1CexEvents) (by decide)

/-- C1, amended: for any sequence of inbound envelopes and timer expiries
containing no mode switch, `messageHistory` never holds two simultaneously
streaming turns. -/
theorem c1_single_streaming_invariant (m : Mode) (es : List Event)
    (hns : es.all noModeSwitchB = true) :
    countStreaming ((runEvents (initState m) es).messageHistory) ≤ 1 :=
  streamInv_le_one _ (streamInv_run es (initState m) (streamInv_init m) hns)

/-- Witness for the amended C1 at a concrete event sequence. -/
theorem c1_single_streaming_invariant_witness :
    ([Event.recv "Hel", Event.timerFire, Event.recv "x"].all noModeSwitchB = true) ∧
    countStreaming
      ((runEvents (initState .ask)
        [Event.recv "Hel", Event.timerFire, Event.recv "x"]).messageHistory) ≤ 1 :=
  ⟨by decide, c1_single_streaming_invariant .ask _ (by decide)⟩

/-! ## Claim C2 -/

/-- C2: classification of a raw inbound payload never throws — the
dispatch runs inside `try`/`catch`, so a parse failure or any shape error
degrades to the plain-text branch carrying the raw text, and a successful
classification is returned as-is; `classifyMsg` is a total function, so
every inbound message maps to exactly one envelope variant. -/
theorem c2_classifier_total_degrades (raw : String) :
    (parseJson raw = none → classifyMsg raw = .catchPlain raw) ∧
    (∀ j, parseJson raw = some j →
      (classifyVal raw j = .error () → classifyMsg raw = .catchPlain raw) ∧
      (∀ env, classifyVal raw j = .ok env → classifyMsg raw = env)) := by
  constructor
  · intro hp
    simp [classifyMsg, hp]
  · intro j hj
    constructor
    · intro he
      simp [classifyMsg, hj, he]
    · intro env henv
      simp [classifyMsg, hj, henv]

/-- A shape-failing payload: valid JSON whose agent message lacks
`additional_kwargs`, so the unguarded read at line 108 throws. -/
def akMissingRaw : String := "\x7b\"agent\":\x7b\"messages\":[\x7b\"content\":\"hi\"\x7d]\x7d\x7d"

/-- Witness for C2: a non-JSON chunk and a shape-failing agent envelope
both degrade to the plain-text branch carrying the raw text. -/
theorem c2_classifier_total_degrades_witness :
    classifyMsg "Hello, world" = .catchPlain "Hello, world" ∧
    classifyMsg akMissingRaw = .catchPlain akMissingRaw :=
  ⟨(c2_classifier_total_degrades "Hello, world").1 rfl,
   ((c2_classifier_total_degrades akMissingRaw).2 _ rfl).1 rfl⟩

/-! ## Claim C3 -/

/-- The Ask-mode state after the three chunks arrive, each with no timer
expiry in between (every gap below the 1000 ms idle timeout). -/
def c3Flow : AppState :=
  runEvents (initState .ask) [.recv "Hel", .recv "lo, ", .recv "world"]

/-- C3: in Ask mode the chunk sequence `["Hel","lo, ","world"]` delivered
within the idle timeout produces exactly one agent turn with content
`"Hello, world"`, still streaming and with the idle timeout armed; the
expiry then fired by silence exceeding the timeout auto-transitions it
from streaming to final with unchanged content. -/
theorem c3_ask_roundtrip_idle_finalize :
    c3Flow.messageHistory = [⟨"Hello, world", .agent, true⟩] ∧
    c3Flow.streamingTimeout = true ∧
    (step c3Flow .timerFire).messageHistory = [⟨"Hello, world", .agent, false⟩] ∧
    (step c3Flow .timerFire).currentStreamingMessage = none := by
  refine ⟨by decide, by decide, by decide, by decide⟩

/-! ## Claim C4 -/

/-- The tool-result record carried by `orphanRaw`. -/
def orphanRec : ToolMsgRec := ⟨.jstr "X", .jstr "orphan result", .jstr "success"⟩

/-- Claim C4 as stated, taken at the store/render level: delivering the
orphan envelope in Agent mode grows `messageHistory` by one and surfaces
one additional standalone block in the rendered transcript. -/
def claimC4 : Prop :=
  ∀ (s : AppState), s.currentMode = .agent →
    (recvMessage s orphanRaw).messageHistory.length = s.messageHistory.length + 1 ∧
    (renderHistory (recvMessage s orphanRaw).messageHistory).length =
      (renderHistory s.messageHistory).length + 1

/-- C4, counterexample: from the initial Agent-mode state the orphan
envelope is pushed into `messageHistory` but `renderMessages` appends no
element for it — `parentToolDiv` is not found, only `console.warn` runs,
and the `toolResultDiv == null` guard (line 195) skips
`chatBox.appendChild`, so the orphan content is not surfaced. -/
theorem c4_orphan_surfaced_cex : ¬ claimC4 :=
  fun h => absurd ((h (initState .agent) rfl).2) (by decide)

/-- C4, amended: the orphan delivery throws nothing and grows
`messageHistory` by exactly one raw agent entry, but when no rendered
block owns tool-call id `"X"` the rendered transcript is unchanged — the
orphan result is only logged, not surfaced as a standalone turn. -/
theorem c4_orphan_logged_not_surfaced (s : AppState) (bs : List Block)
    (hm : s.currentMode = .agent)
    (hno : bs.all (fun b => !ownsId b "X") = true) :
    (recvMessage s orphanRaw).messageHistory = s.messageHistory ++ [orphanEntry] ∧
    renderEntry bs orphanEntry = bs := by
  constructor
  · simp [recvMessage, hm, orphanEntry]
  · have hre : renderEntry bs orphanEntry = attachRec bs orphanRec := rfl
    rw [hre]
    exact attachRec_no_owner bs orphanRec hno

/-- Witness for the amended C4 at the initial Agent-mode state and the
empty rendered transcript. -/
theorem c4_orphan_logged_not_surfaced_witness :
    (recvMessage (initState .agent) orphanRaw).messageHistory =
      (initState .agent).messageHistory ++ [orphanEntry] ∧
    renderEntry [] orphanEntry = [] :=
  c4_orphan_logged_not_surfaced (initState .agent) [] rfl rfl

/-! ## Claim C5 -/

/-- An Agent-mode state whose socket is not open at send time. -/
def c5State : AppState := { initState .agent with socketOpen := false }

/-- Claim C5 as stated: pushing the optimistic user turn `"hi"` followed
by a send rejection restores `messageHistory` to its exact pre-call
state. -/
def claimC5 : Prop :=
  ∀ (s : AppState), s.socketOpen = false →
    (clickSend s "hi").messageHistory = s.messageHistory

/-- C5, counterexample: there is no rollback in the code — after the
rejected send the optimistic user turn is still in the transcript
(the failure branch of `sendMessage` only logs and shows a notification,
lines 366-369). -/
theorem c5_rollback_cex : ¬ claimC5 :=
  fun h => absurd (h c5State rfl) (by decide)

/-- C5, amended: after `"hi"` is pushed optimistically and the send is
rejected, the transcript equals the exact pre-call state with that single
user turn appended — no gap, no duplicate, but also no rollback — while
nothing is sent and an error notification is surfaced; all other state is
untouched. -/
theorem c5_optimistic_turn_persists (s : AppState) (msg : String)
    (hopen : s.socketOpen = false) (hmsg : msg ≠ "") :
    (clickSend s msg).messageHistory = s.messageHistory ++ [⟨msg, .user, false⟩] ∧
    (clickSend s msg).sent = s.sent ∧
    (clickSend s msg).sessionId = s.sessionId ∧
    (clickSend s msg).currentStreamingMessage = s.currentStreamingMessage ∧
    (clickSend s msg).streamingTimeout = s.streamingTimeout ∧
    (clickSend s msg).toasts = s.toasts ++ ["Connection error. Please refresh the page."] := by
  simp [clickSend, hmsg, sendMessage, hopen]

/-- Witness for the amended C5 at the closed-socket state and input
`"hi"`. -/
theorem c5_optimistic_turn_persists_witness :
    (clickSend c5State "hi").messageHistory =
      c5State.messageHistory ++ [⟨"hi", .user, false⟩] ∧
    (clickSend c5State "hi").sent = c5State.sent ∧
    (clickSend c5State "hi").sessionId = c5State.sessionId ∧
    (clickSend c5State "hi").currentStreamingMessage = c5State.currentStreamingMessage ∧
    (clickSend c5State "hi").streamingTimeout = c5State.streamingTimeout ∧
    (clickSend c5State "hi").toasts =
      c5State.toasts ++ ["Connection error. Please refresh the page."] :=
  c5_optimistic_turn_persists c5State "hi" rfl (by decide)

/-! ## Claim C6 -/

/-- An Ask-mode state with an active streaming turn (entry 0) and the
idle timeout armed. -/
def c6State : AppState := step (initState .ask) (.recv "hi")

/-- Claim C6 as stated: a mode switch while a turn is streaming
synchronously finalizes the pending turn (its streaming flag becomes
false) and cancels the idle timer. -/
def claimC6 : Prop :=
  ∀ (s : AppState) (i : Nat) (m : Mode), s.currentStreamingMessage = some i →
    ((step s (.modeSwitch m)).messageHistory[i]?).map Entry.streaming = some false ∧
    (step s (.modeSwitch m)).streamingTimeout = false

/-- C6, counterexample: the mode-change listener (lines 431-445) only
nulls `currentStreamingMessage`; the pending turn keeps `streaming: true`
forever and the armed idle timeout is not cleared. -/
theorem c6_mode_switch_finalizes_cex : ¬ claimC6 :=
  fun h => absurd ((h c6State 0 .agent (by decide)).2) (by decide)

/-- C6, amended: a mode switch while a turn is streaming clears only the
streaming reference — the pending turn stays in the transcript unchanged
(still flagged streaming, never transitioned to final), the idle timeout
is left as it was, and a later expiry mutates no transcript entry; the
cleared reference does mean the next stream starts a fresh turn. -/
theorem c6_mode_switch_clears_pointer_only (s : AppState) (i : Nat) (m : Mode)
    (_h : s.currentStreamingMessage = some i) :
    (step s (.modeSwitch m)).messageHistory = s.messageHistory ∧
    (step s (.modeSwitch m)).currentStreamingMessage = none ∧
    (step s (.modeSwitch m)).streamingTimeout = s.streamingTimeout ∧
    (step (step s (.modeSwitch m)) .timerFire).messageHistory = s.messageHistory := by
  refine ⟨rfl, rfl, rfl, ?_⟩
  by_cases ht : s.streamingTimeout = true <;>
    simp [step, modeChange, timerExpire, ht]

/-- Witness for the amended C6 at the streaming state and a switch to
Agent mode. -/
theorem c6_mode_switch_clears_pointer_only_witness :
    (step c6State (.modeSwitch .agent)).messageHistory = c6State.messageHistory ∧
    (step c6State (.modeSwitch .agent)).currentStreamingMessage = none ∧
    (step c6State (.modeSwitch .agent)).streamingTimeout = c6State.streamingTimeout ∧
    (step (step c6State (.modeSwitch .agent)) .timerFire).messageHistory =
      c6State.messageHistory :=
  c6_mode_switch_clears_pointer_only c6State 0 .agent (by decide)

/-! ## Claim C7 -/

/-- The parsed value of `ragPartialRaw`. -/
def ragPartialVal : JVal :=
  .jobj [("rag", .jobj [("partial", .jbool true), ("content", .jstr "hi")])]

/-- Claim C7 as stated, for its "in particular" instance: every
successfully parsed input whose `.rag.messages.content` is absent but
whose `.rag.partial === true` and `.rag.content` is present classifies as
a RAG-partial envelope — in particular not as either plain-text
fallback. -/
def claimC7 : Prop :=
  ∀ (raw : String) (j : JVal), parseJson raw = some j →
    truthy (jGet (jGet (jGet j "rag") "messages") "content") = false →
    isStrictTrue (jGet (jGet j "rag") "partial") = true →
    truthy (jGet (jGet j "rag") "content") = true →
    classifyMsg raw ≠ .noMatchPlain raw ∧ classifyMsg raw ≠ .catchPlain raw

/-- C7, counterexample: the implemented dispatch has no RAG-partial branch
at all — the only RAG check is `.rag.messages.content` (line 93) — so the
RAG-partial envelope falls through every branch to the plain-text
fallback, while the specified classifier returns `RagPartial("hi")`. -/
theorem c7_rag_partial_cex : ¬ claimC7 :=
  fun h => (h ragPartialRaw ragPartialVal rfl rfl rfl rfl).1 rfl

/-- C7, amended: the implemented dispatch order on a successful parse is
rag-complete, agent, tools, fallback — there is no rag-partial rule.  An
input whose `.rag.messages.content` is absent but whose
`.rag.partial === true` and `.rag.content` is present (and that matches
no other branch) classifies as the plain-text fallback carrying the raw
message, where the specified classifier would return RagPartial of the
content. -/
theorem c7_rag_partial_falls_through (raw : String) (j : JVal)
    (hp : parseJson raw = some j)
    (h1 : truthy (jGet (jGet (jGet j "rag") "messages") "content") = false)
    (h2 : isStrictTrue (jGet (jGet j "rag") "partial") = true)
    (h3 : truthy (jGet (jGet j "rag") "content") = true)
    (h4 : truthy (jGet j "agent") = false)
    (h5 : truthy (jGet j "tools") = false) :
    classifyMsg raw = .noMatchPlain raw ∧
    specClassify raw = .ragPartialMsg (jGet (jGet j "rag") "content") := by
  have hragt : truthy (jGet j "rag") = true := isStrictTrue_jGet_truthy _ _ h2
  have hjt : truthy j = true := by
    cases j <;> simp_all [jGet, truthy]
  obtain ⟨hnn, hnu⟩ := truthy_ne_null j hjt
  obtain ⟨hrnn, hrnu⟩ := truthy_ne_null _ hragt
  constructor
  · have hfall := classifyAgent_falls raw j hnn hnu h4 h5
    have hcv : classifyVal raw j = .ok (.noMatchPlain raw) := by
      by_cases hmt : truthy (jGet (jGet j "rag") "messages") = true
      · obtain ⟨hmnn, hmnu⟩ := truthy_ne_null _ hmt
        simp [classifyVal, getF_ok j "rag" hnn hnu, hragt,
          getF_ok (jGet j "rag") "messages" hrnn hrnu, hmt,
          getF_ok (jGet (jGet j "rag") "messages") "content" hmnn hmnu, h1, hfall]
      · simp [classifyVal, getF_ok j "rag" hnn hnu, hragt,
          getF_ok (jGet j "rag") "messages" hrnn hrnu, hmt, hfall]
    simp [classifyMsg, hp, hcv]
  · unfold specClassify
    rw [hp]
    simp [h1, h2, h3]

/-- Witness for the amended C7 at the concrete RAG-partial payload. -/
theorem c7_rag_partial_falls_through_witness :
    classifyMsg ragPartialRaw = .noMatchPlain ragPartialRaw ∧
    specClassify ragPartialRaw =
      .ragPartialMsg (jGet (jGet ragPartialVal "rag") "content") :=
  c7_rag_partial_falls_through ragPartialRaw ragPartialVal rfl rfl rfl rfl rfl rfl

/-! ## Claim C8 -/

/-- Claim C8 as stated: delivering the same tool-result envelope a second
time is idempotent — the results attached under the owning tool call are
the same as after a single delivery, with no error and no duplicate
attachment. -/
def claimC8 : Prop :=
  ∀ (h : List Entry),
    (attachedResults (renderHistory (h ++ [resEntry, resEntry])) "call_1").length =
      (attachedResults (renderHistory (h ++ [resEntry])) "call_1").length

/-- C8, counterexample: after the `call_1` tool-call turn, delivering
`resRaw` twice attaches the result twice under the owning tool call —
each `renderMessages` pass re-runs the attachment for every `tools` entry
in the history (lines 142-155), so the second transcript entry duplicates
the attachment. -/
theorem c8_duplicate_result_idempotent_cex : ¬ claimC8 :=
  fun h => absurd (h [tcEntry]) (by decide)

/-- C8, amended: delivering the same tool-result envelope twice raises no
error and appends no additional top-level turn to the rendered transcript
(each delivery renders no block of its own), but each delivery performs
its own attachment pass on the owning tool call — attachment is applied
once per delivery, so the result appears twice. -/
theorem c8_duplicate_result_attaches_twice (h : List Entry) :
    renderHistory (h ++ [resEntry, resEntry]) =
      attachRec (attachRec (renderHistory h) resRec) resRec ∧
    (renderHistory (h ++ [resEntry, resEntry])).length = (renderHistory h).length := by
  have hre : ∀ bs : List Block, renderEntry bs resEntry = attachRec bs resRec :=
    fun bs => rfl
  have heq : renderHistory (h ++ [resEntry, resEntry]) =
      attachRec (attachRec (renderHistory h) resRec) resRec := by
    have : h ++ [resEntry, resEntry] = (h ++ [resEntry]) ++ [resEntry] := by simp
    rw [this, renderHistory_append, renderHistory_append, hre, hre]
  exact ⟨heq, by rw [heq, attachRec_length, attachRec_length]⟩

/-! ## Claim C9 -/

/-- Claim C9 as stated: the "New chat" action stores the freshly generated
session id, resets the transcript store to empty, and triggers a transport
reconnect (a `connectWebSocket` invocation) under the new identity. -/
def claimC9 : Prop :=
  ∀ (s : AppState) (freshId : String),
    (newChatClick s freshId).sessionId = freshId ∧
    (newChatClick s freshId).messageHistory = [] ∧
    (newChatClick s freshId).socketGen ≠ s.socketGen

/-- C9, counterexample: the new-chat listener (lines 479-490) never calls
`connectWebSocket` — the existing socket connection is kept, so no
transport reconnect happens. -/
theorem c9_new_chat_reconnect_cex : ¬ claimC9 :=
  fun h => (h (initState .agent) "sess-fresh").2.2 rfl

/-- C9, amended: "New chat" stores the freshly generated session id and
resets the transcript store to empty (then refetches history for the new
id), but does not reconnect the transport — the socket, mode, streaming
reference and pending timeout are all left untouched; the new id is only
carried by subsequently sent payloads. -/
theorem c9_new_chat_resets_without_reconnect (s : AppState) (freshId : String) :
    (newChatClick s freshId).sessionId = freshId ∧
    (newChatClick s freshId).messageHistory = [] ∧
    (newChatClick s freshId).socketGen = s.socketGen ∧
    (newChatClick s freshId).socketOpen = s.socketOpen ∧
    (newChatClick s freshId).currentMode = s.currentMode ∧
    (newChatClick s freshId).currentStreamingMessage = s.currentStreamingMessage ∧
    (newChatClick s freshId).streamingTimeout = s.streamingTimeout ∧
    (sendMessage (newChatClick s freshId) "m").sent =
      (newChatClick s freshId).sent ++
        (if s.socketOpen then [⟨"m", freshId, s.currentMode⟩] else []) := by
  refine ⟨rfl, rfl, rfl, rfl, rfl, rfl, rfl, ?_⟩
  by_cases ho : s.socketOpen = true
  · by_cases hm : s.currentMode = .ask <;>
      simp [sendMessage, newChatClick, ho, hm]
  · simp only [Bool.not_eq_true] at ho
    simp [sendMessage, newChatClick, ho]

/-! ## Claim C10 -/

/-- C10: when the idle-timeout callback fires while no streaming turn is
active (`currentStreamingMessage` is null, e.g. after a new send or a mode
switch cleared it), it performs no mutation — no transcript entry, content
or streaming flag changes, and no other client state changes. -/
theorem c10_timer_noop_without_stream (s : AppState)
    (h : s.currentStreamingMessage = none) :
    (step s .timerFire).messageHistory = s.messageHistory ∧
    (step s .timerFire).currentStreamingMessage = none ∧
    (step s .timerFire).sessionId = s.sessionId ∧
    (step s .timerFire).currentMode = s.currentMode ∧
    (step s .timerFire).socketGen = s.socketGen ∧
    (step s .timerFire).socketOpen = s.socketOpen ∧
    (step s .timerFire).sent = s.sent := by
  by_cases ht : s.streamingTimeout = true
  · simp [step, ht, timerExpire, h]
  · simp only [Bool.not_eq_true] at ht
    simp [step, ht, h]

/-- A state with the idle timeout armed but no active streaming turn
(as after `sendMessage` cleared the reference without disarming in a
mode other than Ask, or a mode switch mid-stream). -/
def c10State : AppState := { initState .ask with streamingTimeout := true }

/-- Witness for C10 at a concrete armed-timer state. -/
theorem c10_timer_noop_without_stream_witness :
    (step c10State .timerFire).messageHistory = c10State.messageHistory ∧
    (step c10State .timerFire).currentStreamingMessage = none ∧
    (step c10State .timerFire).sessionId = c10State.sessionId ∧
    (step c10State .timerFire).currentMode = c10State.currentMode ∧
    (step c10State .timerFire).socketGen = c10State.socketGen ∧
    (step c10State .timerFire).socketOpen = c10State.socketOpen ∧
    (step c10State .timerFire).sent = c10State.sent :=
  c10_timer_noop_without_stream c10State rfl
